import Mathlib

/-!
Verification development for the asynchronous actor-learner trainer in
`dev.py` (async-rl).  The `Environment` class, the worker loop in
`GlobalThread._actor_learner_thread`, and the orchestration in
`GlobalThread.train` / `GlobalThread.build_graph` are shallowly embedded
below.  External collaborators (the ALE simulator, skimage's `resize`,
the TensorFlow network forward passes and the rng draws) are passed in
as explicit parameters, exactly as the spec declares them external.
-/

namespace AsyncRL

/-! ### Constants from dev.py -/

/-- `ACTIONS = 4` (dev.py line 11). -/
def ACTIONS : Nat := 4

/-- `NUM_CONCURRENT = 4` (dev.py line 12). -/
def NUM_CONCURRENT : Nat := 4

/-- `GAMMA = 0.01` (dev.py line 13), as an exact rational. -/
def GAMMA : ℚ := 1/100

/-- `self.frames_to_skip = 4` (Environment.__init__). -/
def framesToSkip : Nat := 4

/-- `self.buffer_length = 2` (Environment.__init__). -/
def bufferLength : Nat := 2

/-- `self.max_start_nullops = 30` (Environment.__init__). -/
def maxStartNullops : Nat := 30

/-- `self.agent_history_length = 4` (Environment.__init__). -/
def agentHistoryLength : Nat := 4

/-- `T_max = 100` (dev.py line 284). -/
def TMax : Nat := 100

/-! ### Frames

A raw ALE screen is a 2-D grid of uint8 grayscale pixels; a
preprocessed frame is the float-valued output of skimage `resize`. -/

/-- A raw grayscale screen capture: rows of pixel values. -/
abbrev RawFrame := List (List Nat)

/-- A preprocessed (flicker-corrected, rescaled) frame. -/
abbrev PFrame := List (List ℚ)

/-- Pixel access in a raw frame (0 outside the grid). -/
def pixel (g : RawFrame) (i j : Nat) : Nat := (g.getD i []).getD j 0

/-- `np.maximum` of two screens: elementwise pixel maximum
(dev.py line 154). -/
def elementwiseMax (a b : RawFrame) : RawFrame :=
  List.zipWith (List.zipWith max) a b

/-! ### The ALE simulator, as an external collaborator

`ALEInterface` is external (§6 of the spec): we model exactly the
operations dev.py calls, as pure functions over an abstract simulator
state `σ`. -/

/-- The simulator interface used by dev.py: `act`, `getScreenGrayscale`,
`lives`, `game_over`, `reset_game`, `getMinimalActionSet`. -/
structure ALE (σ : Type) where
  act : σ → Nat → ℚ × σ
  screen : σ → RawFrame
  lives : σ → Nat
  gameOver : σ → Bool
  resetGame : σ → σ
  minimalActionSet : List Nat

/-! ### Environment state (dev.py class Environment) -/

/-- The mutable fields of an `Environment` instance: the simulator
handle, the 2-slot screen ring buffer with its toggling parity index
(`self.index`, `False` standing for 0), the deque `self.state_buffer`,
`self.start_lives` and `self.min_action_set`. -/
structure EnvState (σ : Type) where
  sim : σ
  screenBuffer0 : RawFrame
  screenBuffer1 : RawFrame
  index : Bool
  stateBuffer : List PFrame
  startLives : Nat
  minActionSet : List Nat

/-- `self.screen_buffer[self.index]`. -/
def currentSlot (e : EnvState σ) : RawFrame :=
  if e.index then e.screenBuffer1 else e.screenBuffer0

/-- `self.screen_buffer[0 if self.index == 1 else 1]`, the slot the
toggled index points away from. -/
def otherSlot (e : EnvState σ) : RawFrame :=
  if e.index then e.screenBuffer0 else e.screenBuffer1

/-- `Environment.__init__`: fresh instance with an empty (uninitialized)
screen buffer and an empty state deque. -/
def mkEnvironment (A : ALE σ) (sim : σ) : EnvState σ :=
  { sim := sim
    screenBuffer0 := []
    screenBuffer1 := []
    index := false
    stateBuffer := []
    startLives := 0
    minActionSet := A.minimalActionSet }

/-- `Environment._act`: perform one simulator tick, capture the
resulting screen into the slot at `self.index`, toggle the index,
return the tick reward. -/
def envAct (A : ALE σ) (e : EnvState σ) (action : Nat) : ℚ × EnvState σ :=
  let rs := A.act e.sim action
  ( rs.1,
    { e with
      sim := rs.2
      screenBuffer0 := if e.index then e.screenBuffer0 else A.screen rs.2
      screenBuffer1 := if e.index then A.screen rs.2 else e.screenBuffer1
      index := !e.index } )

/-- The loop body count of `Environment._repeat_action`:
`for _ in range(self.frames_to_skip): reward += self._act(action)`. -/
def repeatActionAux (A : ALE σ) (action : Nat) : Nat → ℚ × EnvState σ → ℚ × EnvState σ
  | 0, acc => acc
  | n+1, acc =>
    let step := envAct A acc.2 action
    repeatActionAux A action n (acc.1 + step.1, step.2)

/-- `Environment._repeat_action`: repeat the action `frames_to_skip`
times, summing the per-tick rewards. -/
def repeatAction (A : ALE σ) (e : EnvState σ) (action : Nat) : ℚ × EnvState σ :=
  repeatActionAux A action framesToSkip (0, e)

/-- `Environment.get_preprocessed_frame`: elementwise max of the two
ring-buffer slots, then the (external, deterministic) rescale to
84×84. -/
def getPreprocessedFrame (resizeFn : RawFrame → PFrame) (e : EnvState σ) : PFrame :=
  resizeFn (elementwiseMax (currentSlot e) (otherSlot e))

/-- `Environment._did_episode_end`: game over, or the life counter has
dropped below the count recorded at episode start. -/
def didEpisodeEnd (A : ALE σ) (e : EnvState σ) : Bool :=
  A.gameOver e.sim || decide (A.lives e.sim < e.startLives)

/-- Result of `Environment.get_new_state`: the assembled
`agent_history_length`-frame window plus the updated environment. -/
structure StateResult (σ : Type) where
  window : List PFrame
  env : EnvState σ

/-- `Environment.get_new_state`: compute the current preprocessed
frame, assemble the state as the deque contents followed by the current
frame, then rotate the deque (popleft, append current). -/
def getNewState (resizeFn : RawFrame → PFrame) (e : EnvState σ) : StateResult σ :=
  let current := getPreprocessedFrame resizeFn e
  { window := e.stateBuffer ++ [current]
    env := { e with stateBuffer := e.stateBuffer.drop 1 ++ [current] } }

/-- The body of the null-op warm-up loop in
`Environment._init_new_episode`: one null action. -/
def nullopLoop (A : ALE σ) : EnvState σ → Nat → EnvState σ
  | e, 0 => e
  | e, n+1 => nullopLoop A (envAct A e 0).2 n

/-- One iteration of the pre-fill loop in
`Environment._init_new_episode`: `self._act(0)` then
`self.state_buffer.append(self.get_preprocessed_frame())`. -/
def prefillStep (A : ALE σ) (resizeFn : RawFrame → PFrame) (e : EnvState σ) : EnvState σ :=
  let e' := (envAct A e 0).2
  { e' with stateBuffer := e'.stateBuffer ++ [getPreprocessedFrame resizeFn e'] }

/-- The pre-fill loop: `for i in range(self.agent_history_length-1)`. -/
def prefillLoop (A : ALE σ) (resizeFn : RawFrame → PFrame) : EnvState σ → Nat → EnvState σ
  | e, 0 => e
  | e, n+1 => prefillLoop A resizeFn (prefillStep A resizeFn e) n

/-- `Environment._init_new_episode`: reset the game, record the life
count, clear the state deque, perform the randomly drawn number of
null ops (the rng draw `nullopDraw` is passed in), then pre-fill the
state deque with `agent_history_length - 1` frames. -/
def initNewEpisode (A : ALE σ) (resizeFn : RawFrame → PFrame)
    (e : EnvState σ) (nullopDraw : Nat) : EnvState σ :=
  let sim0 := A.resetGame e.sim
  let e0 := { e with sim := sim0, startLives := A.lives sim0, stateBuffer := [] }
  let e1 := if maxStartNullops > 0 then nullopLoop A e0 nullopDraw else e0
  prefillLoop A resizeFn e1 (agentHistoryLength - 1)

/-- `Environment.get_initial_state`: init a new episode, then return
the current state window. -/
def getInitialState (A : ALE σ) (resizeFn : RawFrame → PFrame)
    (e : EnvState σ) (nullopDraw : Nat) : StateResult σ :=
  getNewState resizeFn (initNewEpisode A resizeFn e nullopDraw)

/-- Result record of `Environment.execute`. -/
structure ExecResult (σ : Type) where
  reward : ℚ
  state : List PFrame
  env : EnvState σ
  terminal : Bool

/-- `Environment.execute`: repeat the mapped action
(`self.min_action_set[action]`), build the new state window, and test
for episode end. -/
def execute (A : ALE σ) (resizeFn : RawFrame → PFrame)
    (e : EnvState σ) (action : Nat) : ExecResult σ :=
  let ra := repeatAction A e (e.minActionSet.getD action 0)
  let sr := getNewState resizeFn ra.2
  { reward := ra.1
    state := sr.window
    env := sr.env
    terminal := didEpisodeEnd A sr.env }

/-! ### numpy helpers used by the worker loop

`np.argmax`, `np.max` and `np.clip` are external numpy functions;
their documented semantics are embedded here: `argmax` returns the
index of the first occurrence of the maximum value. -/

/-- Maximum value of a list of rationals (`np.max`; the `[]` case is
out of numpy's domain and defaults to 0). -/
def listMaxQ : List ℚ → ℚ
  | [] => 0
  | [x] => x
  | x :: y :: ys => max x (listMaxQ (y :: ys))

/-- Index of the first occurrence of `m` (0 if absent). -/
def firstIndexOfQ (m : ℚ) : List ℚ → Nat
  | [] => 0
  | x :: xs => if x = m then 0 else firstIndexOfQ m xs + 1

/-- `np.argmax`: index of the first occurrence of the maximum value. -/
def npArgmax (l : List ℚ) : Nat := firstIndexOfQ (listMaxQ l) l

/-- `np.clip(r, -1, 1)`. -/
def clip (r : ℚ) : ℚ := min (max r (-1)) 1

/-- The epsilon-greedy choice in `_actor_learner_thread` (dev.py lines
292-296): if `rng.rand() < epsilon` take the uniformly drawn action
index, else `np.argmax(Q_s_a)`. -/
def selectAction (randv epsilon : ℚ) (randint : Nat) (QSA : List ℚ) : Nat :=
  if randv < epsilon then randint else npArgmax QSA

/-! ### Session ops of the graph (build_graph)

`build_graph` defines, per thread, an accumulate op
(`assign_add_gradients`), a copy+apply pair (`copy_gradients` /
`apply_gradients`), a zero-out op, and the global
`_reset_target_network_params` op.  A `SessionEvent` records one
`session.run` of such an op, tagged with the loop counter where
meaningful. -/

inductive SessionEvent : Type
  | assignAddGradients (t : Nat)
  | applyGradients (t : Nat)
  | zeroOutGradients (t : Nat)
  | resetTargetNetworkParams
deriving DecidableEq

/-- Is the event a run of the `apply_gradients` op? -/
def SessionEvent.isApplyEv : SessionEvent → Bool
  | .applyGradients _ => true
  | _ => false

/-- Is the event a run of an `assign_add_gradients` (accumulate) op? -/
def SessionEvent.isAccumEv : SessionEvent → Bool
  | .assignAddGradients _ => true
  | _ => false

/-- Is the event a run of `_reset_target_network_params`? -/
def SessionEvent.isResetEv : SessionEvent → Bool
  | .resetTargetNetworkParams => true
  | _ => false

/-- Number of `apply_gradients` runs in a trace. -/
def countApplyEvents (l : List SessionEvent) : Nat := l.countP (·.isApplyEv)

/-- Number of accumulate-op runs in a trace. -/
def countAccumEvents (l : List SessionEvent) : Nat := l.countP (·.isAccumEv)

/-- Number of target-sync runs in a trace. -/
def countResetEvents (l : List SessionEvent) : Nat := l.countP (·.isResetEv)

/-! ### Shared parameters (online and target copies)

`network_params` and `target_network_params` are the two parameter
copies owned by `GlobalThread`; tensors are abstracted by a type `Θ`. -/

/-- The online and target parameter copies. -/
structure Params (Θ : Type) where
  online : Θ
  target : Θ

/-- `_reset_target_network_params`: assign every online tensor into the
corresponding target tensor. -/
def resetTargetNetworkParamsOp (p : Params Θ) : Params Θ :=
  { p with target := p.online }

/-- `apply_gradients`: merge a gradient into the online copy via the
external optimizer's update rule `upd`; the target copy is untouched. -/
def applyGradientsOp (upd : Θ → Θ → Θ) (g : Θ) (p : Params Θ) : Params Θ :=
  { p with online := upd p.online g }

/-! ### The actor-learner worker loop (dev.py `_actor_learner_thread`)

External inputs per iteration: the online and target network forward
passes, the `rng.rand()` and `rng.randint` draws, and the episode
null-op draws, all passed in as streams indexed by the loop counter. -/

/-- External collaborators and rng streams of one worker. -/
structure WorkerCtx (σ : Type) where
  A : ALE σ
  resizeFn : RawFrame → PFrame
  forward : List PFrame → List ℚ
  targetForward : List PFrame → List ℚ
  randVal : Nat → ℚ
  randAction : Nat → Nat
  nullopDraw : Nat → Nat

/-- The loop-carried state of one worker: its environment, the current
state window, the thread's gradient accumulator variables (the only
writes the loop performs on them are zero assignments; modelled
pointwise as a single rational), and the trace of session ops run.
`lastAction`, `lastReward` (post-clip) and `lastY` record the values
computed in the most recent iteration. -/
structure LoopState (σ : Type) where
  env : EnvState σ
  state : List PFrame
  grads : ℚ
  events : List SessionEvent
  lastAction : Nat
  lastReward : ℚ
  lastY : ℚ

/-- One iteration of the main learning loop of
`_actor_learner_thread` (dev.py lines 285-343).  Note: the
accumulate (`assign_add_gradients`), `copy_gradients` and
`apply_gradients` session calls are commented out in the source; the
only gradient-related op actually run is the zero-out at
`T % 5 == 0`. -/
def workerIteration (ctx : WorkerCtx σ) (T : Nat) (ls : LoopState σ) : LoopState σ :=
  let QSA := ctx.forward ls.state
  let epsilon : ℚ := 1
  let action := selectAction (ctx.randVal T) epsilon (ctx.randAction T) QSA
  let res := execute ctx.A ctx.resizeFn ls.env action
  let reward := clip res.reward
  let targetQ := ctx.targetForward res.state
  let y := if res.terminal then reward else reward + GAMMA * listMaxQ targetQ
  let grads' := if T % 5 = 0 then 0 else ls.grads
  let evs := if T % 5 = 0 then [SessionEvent.zeroOutGradients T] else []
  let post :=
    if res.terminal then
      let init := getInitialState ctx.A ctx.resizeFn res.env (ctx.nullopDraw T)
      (init.env, init.window)
    else
      (res.env, res.state)
  { env := post.1
    state := post.2
    grads := grads'
    events := ls.events ++ evs
    lastAction := action
    lastReward := reward
    lastY := y }

/-- Run the worker loop from counter `T` for `n` iterations
(`while T < T_max`, with `T += 1` at the end of the body). -/
def workerRun (ctx : WorkerCtx σ) : Nat → Nat → LoopState σ → LoopState σ
  | _, 0, ls => ls
  | T, n+1, ls => workerRun ctx (T+1) n (workerIteration ctx T ls)

/-- The whole `_actor_learner_thread` after its environment and initial
state are set up: the bounded loop of `TMax` iterations followed by the
one `_reset_target_network_params` run at the end of the thread. -/
def actorLearnerThread (ctx : WorkerCtx σ) (ls : LoopState σ) :
    LoopState σ × List SessionEvent :=
  let final := workerRun ctx 0 TMax ls
  (final, final.events ++ [SessionEvent.resetTargetNetworkParams])

/-- The session-op trace of one worker thread. -/
def threadEvents (ctx : WorkerCtx σ) (ls : LoopState σ) : List SessionEvent :=
  (actorLearnerThread ctx ls).2

/-- `GlobalThread.train`: spawn `NUM_CONCURRENT` worker threads and
join them all.  The session-op trace of the run is modelled as a
sequential linearization: the concatenation of the workers' traces. -/
def trainEvents (ctx : WorkerCtx σ) (ls0 : Nat → LoopState σ) : List SessionEvent :=
  ((List.range NUM_CONCURRENT).map (fun i => threadEvents ctx (ls0 i))).flatten

/-! ### Helper lemmas: episode initialization -/

lemma envAct_stateBuffer (A : ALE σ) (e : EnvState σ) (a : Nat) :
    (envAct A e a).2.stateBuffer = e.stateBuffer := rfl

lemma envAct_startLives (A : ALE σ) (e : EnvState σ) (a : Nat) :
    (envAct A e a).2.startLives = e.startLives := rfl

lemma nullopLoop_stateBuffer (A : ALE σ) :
    ∀ (n : Nat) (e : EnvState σ), (nullopLoop A e n).stateBuffer = e.stateBuffer := by
  intro n
  induction n with
  | zero => intro e; rfl
  | succ k ih => intro e; rw [nullopLoop, ih, envAct_stateBuffer]

lemma nullopLoop_startLives (A : ALE σ) :
    ∀ (n : Nat) (e : EnvState σ), (nullopLoop A e n).startLives = e.startLives := by
  intro n
  induction n with
  | zero => intro e; rfl
  | succ k ih => intro e; rw [nullopLoop, ih, envAct_startLives]

lemma prefillStep_stateBuffer (A : ALE σ) (r : RawFrame → PFrame) (e : EnvState σ) :
    (prefillStep A r e).stateBuffer =
      e.stateBuffer ++ [getPreprocessedFrame r (envAct A e 0).2] := by
  rw [prefillStep, envAct_stateBuffer]

lemma prefillStep_startLives (A : ALE σ) (r : RawFrame → PFrame) (e : EnvState σ) :
    (prefillStep A r e).startLives = e.startLives := rfl

lemma prefillLoop_length (A : ALE σ) (r : RawFrame → PFrame) :
    ∀ (n : Nat) (e : EnvState σ),
      (prefillLoop A r e n).stateBuffer.length = e.stateBuffer.length + n := by
  intro n
  induction n with
  | zero => intro e; rfl
  | succ k ih =>
    intro e
    rw [prefillLoop, ih, prefillStep_stateBuffer, List.length_append]
    simp
    omega

lemma prefillLoop_startLives (A : ALE σ) (r : RawFrame → PFrame) :
    ∀ (n : Nat) (e : EnvState σ),
      (prefillLoop A r e n).startLives = e.startLives := by
  intro n
  induction n with
  | zero => intro e; rfl
  | succ k ih => intro e; rw [prefillLoop, ih, prefillStep_startLives]

lemma initNewEpisode_length (A : ALE σ) (r : RawFrame → PFrame)
    (e : EnvState σ) (d : Nat) :
    (initNewEpisode A r e d).stateBuffer.length = 3 := by
  rw [initNewEpisode]
  simp only [maxStartNullops]
  rw [if_pos (by norm_num), prefillLoop_length, nullopLoop_stateBuffer]
  rfl

lemma initNewEpisode_startLives (A : ALE σ) (r : RawFrame → PFrame)
    (e : EnvState σ) (d : Nat) :
    (initNewEpisode A r e d).startLives = A.lives (A.resetGame e.sim) := by
  rw [initNewEpisode]
  simp only [maxStartNullops]
  rw [if_pos (by norm_num), prefillLoop_startLives, nullopLoop_startLives]

/-- The preprocessed frame only reads the screen buffer and the parity
index; updating the state deque does not change it. -/
lemma getPreprocessedFrame_prefillStep (A : ALE σ) (r : RawFrame → PFrame)
    (e : EnvState σ) :
    getPreprocessedFrame r (prefillStep A r e) =
      getPreprocessedFrame r (envAct A e 0).2 := rfl

/-- After at least one pre-fill iteration, the most recently appended
deque entry is exactly the preprocessed frame of the resulting
environment: no simulator tick separates the last append from the
current screen-buffer contents. -/
lemma prefillLoop_getLast (A : ALE σ) (r : RawFrame → PFrame) :
    ∀ (n : Nat) (e : EnvState σ),
      (prefillLoop A r e (n+1)).stateBuffer.getLast? =
        some (getPreprocessedFrame r (prefillLoop A r e (n+1))) := by
  intro n
  induction n with
  | zero =>
    intro e
    show (prefillStep A r e).stateBuffer.getLast? =
      some (getPreprocessedFrame r (prefillStep A r e))
    rw [prefillStep_stateBuffer, getPreprocessedFrame_prefillStep,
      List.getLast?_concat]
  | succ k ih =>
    intro e
    show (prefillLoop A r (prefillStep A r e) (k+1)).stateBuffer.getLast? = _
    rw [ih]
    rfl

/-! ### Helper lemmas: action repetition and state assembly -/

lemma repeatActionAux_stateBuffer (A : ALE σ) (a : Nat) :
    ∀ (n : Nat) (acc : ℚ × EnvState σ),
      (repeatActionAux A a n acc).2.stateBuffer = acc.2.stateBuffer := by
  intro n
  induction n with
  | zero => intro acc; rfl
  | succ k ih => intro acc; rw [repeatActionAux, ih, envAct_stateBuffer]

lemma repeatActionAux_startLives (A : ALE σ) (a : Nat) :
    ∀ (n : Nat) (acc : ℚ × EnvState σ),
      (repeatActionAux A a n acc).2.startLives = acc.2.startLives := by
  intro n
  induction n with
  | zero => intro acc; rfl
  | succ k ih => intro acc; rw [repeatActionAux, ih, envAct_startLives]

lemma repeatAction_stateBuffer (A : ALE σ) (e : EnvState σ) (a : Nat) :
    (repeatAction A e a).2.stateBuffer = e.stateBuffer :=
  repeatActionAux_stateBuffer A a framesToSkip (0, e)

lemma repeatAction_startLives (A : ALE σ) (e : EnvState σ) (a : Nat) :
    (repeatAction A e a).2.startLives = e.startLives :=
  repeatActionAux_startLives A a framesToSkip (0, e)

lemma getNewState_window (r : RawFrame → PFrame) (e : EnvState σ) :
    (getNewState r e).window = e.stateBuffer ++ [getPreprocessedFrame r e] := rfl

lemma getNewState_stateBuffer (r : RawFrame → PFrame) (e : EnvState σ) :
    (getNewState r e).env.stateBuffer =
      e.stateBuffer.drop 1 ++ [getPreprocessedFrame r e] := rfl

lemma getNewState_startLives (r : RawFrame → PFrame) (e : EnvState σ) :
    (getNewState r e).env.startLives = e.startLives := rfl

lemma getNewState_sim (r : RawFrame → PFrame) (e : EnvState σ) :
    (getNewState r e).env.sim = e.sim := rfl

lemma getInitialState_window (A : ALE σ) (r : RawFrame → PFrame)
    (e : EnvState σ) (d : Nat) :
    (getInitialState A r e d).window =
      (initNewEpisode A r e d).stateBuffer ++
        [getPreprocessedFrame r (initNewEpisode A r e d)] := rfl

lemma execute_state (A : ALE σ) (r : RawFrame → PFrame) (e : EnvState σ) (a : Nat) :
    (execute A r e a).state =
      (repeatAction A e (e.minActionSet.getD a 0)).2.stateBuffer ++
        [getPreprocessedFrame r (repeatAction A e (e.minActionSet.getD a 0)).2] := rfl

lemma execute_env_stateBuffer (A : ALE σ) (r : RawFrame → PFrame)
    (e : EnvState σ) (a : Nat) :
    (execute A r e a).env.stateBuffer =
      (repeatAction A e (e.minActionSet.getD a 0)).2.stateBuffer.drop 1 ++
        [getPreprocessedFrame r (repeatAction A e (e.minActionSet.getD a 0)).2] := rfl

/-- The most recently appended state-deque entry at the end of episode
initialization is the preprocessed frame of the resulting environment. -/
lemma initNewEpisode_getLast (A : ALE σ) (r : RawFrame → PFrame)
    (e : EnvState σ) (d : Nat) :
    (initNewEpisode A r e d).stateBuffer.getLast? =
      some (getPreprocessedFrame r (initNewEpisode A r e d)) :=
  prefillLoop_getLast A r 2
    (nullopLoop A
      { e with
        sim := A.resetGame e.sim
        startLives := A.lives (A.resetGame e.sim)
        stateBuffer := [] } d)

/-! ### Claim theorems: state window, termination, initial state -/

/-- C3: the StateWindow always has exactly H = 4 frames after
initialization: the window returned by `get_initial_state` has exactly
`agentHistoryLength` frames and leaves the deque equal to the window's
tail; and from any environment satisfying that invariant, `execute`
returns a window of length H obtained by dropping exactly the oldest
frame of the previous window and appending exactly one new frame, and
re-establishes the invariant. -/
theorem stateWindow_length_invariant (A : ALE σ) (r : RawFrame → PFrame)
    (e : EnvState σ) (d : Nat) (a : Nat) :
    (getInitialState A r e d).window.length = agentHistoryLength
    ∧ (getInitialState A r e d).env.stateBuffer =
        (getInitialState A r e d).window.drop 1
    ∧ (∀ (e' : EnvState σ) (w : List PFrame),
        e'.stateBuffer = w.drop 1 → w.length = agentHistoryLength →
          (execute A r e' a).state.length = agentHistoryLength
          ∧ (execute A r e' a).state =
              w.drop 1 ++
                [getPreprocessedFrame r
                  (repeatAction A e' (e'.minActionSet.getD a 0)).2]
          ∧ (execute A r e' a).env.stateBuffer =
              (execute A r e' a).state.drop 1) := by
  have hlen := initNewEpisode_length A r e d
  refine ⟨?_, ?_, ?_⟩
  · rw [getInitialState_window, List.length_append, hlen]
    rfl
  · show (getNewState r (initNewEpisode A r e d)).env.stateBuffer = _
    rw [getNewState_stateBuffer, getInitialState_window,
      List.drop_append_of_le_length (by omega)]
  · intro e' w hinv hw
    have hdrop : (w.drop 1).length = 3 := by
      rw [List.length_drop, hw]; rfl
    refine ⟨?_, ?_, ?_⟩
    · rw [execute_state, repeatAction_stateBuffer, hinv, List.length_append, hdrop]
      rfl
    · rw [execute_state, repeatAction_stateBuffer, hinv]
    · rw [execute_env_stateBuffer, execute_state, repeatAction_stateBuffer, hinv,
        List.drop_append_of_le_length (by omega)]

/-- C4: the terminal flag returned by `execute` is true iff the
simulator reports game over or the current life count has dropped
strictly below the count recorded at episode start; `execute` leaves
the recorded start-lives unchanged, and episode initialization records
them as the life count straight after the reset. -/
theorem terminal_iff_gameOver_or_lifeLoss (A : ALE σ) (r : RawFrame → PFrame)
    (e : EnvState σ) (a : Nat) (d : Nat) :
    ((execute A r e a).terminal = true ↔
      (A.gameOver (execute A r e a).env.sim = true ∨
        A.lives (execute A r e a).env.sim < e.startLives))
    ∧ (execute A r e a).env.startLives = e.startLives
    ∧ (initNewEpisode A r e d).startLives = A.lives (A.resetGame e.sim) := by
  have hsl : (execute A r e a).env.startLives = e.startLives := by
    show (getNewState r (repeatAction A e (e.minActionSet.getD a 0)).2).env.startLives = _
    rw [getNewState_startLives, repeatAction_startLives]
  refine ⟨?_, hsl, initNewEpisode_startLives A r e d⟩
  show didEpisodeEnd A (execute A r e a).env = true ↔ _
  rw [didEpisodeEnd]
  have h2 : (execute A r e a).env.startLives = e.startLives := hsl
  rw [h2]
  simp [Bool.or_eq_true, decide_eq_true_iff]

/-- C10: the last two frames of the window returned by
`get_initial_state` are identical: the current frame computed in
`get_new_state` is recomputed from the very screen-buffer contents
that produced the last pre-filled deque entry, since no simulator tick
happens in between. -/
theorem initialState_lastTwoFrames_equal (A : ALE σ) (r : RawFrame → PFrame)
    (e : EnvState σ) (d : Nat) :
    (getInitialState A r e d).window.getD 2 [] =
      (getInitialState A r e d).window.getD 3 []
    ∧ (getInitialState A r e d).window.getD 3 [] =
        getPreprocessedFrame r (initNewEpisode A r e d)
    ∧ (getInitialState A r e d).window.length = 4 := by
  obtain ⟨x, y, z, hxyz⟩ := List.length_eq_three.mp (initNewEpisode_length A r e d)
  have hlast := initNewEpisode_getLast A r e d
  rw [hxyz] at hlast
  have hz : z = getPreprocessedFrame r (initNewEpisode A r e d) := by
    simpa [List.getLast?] using hlast
  rw [getInitialState_window, hxyz]
  refine ⟨?_, ?_, ?_⟩
  · simp [List.getD, hz]
  · simp [List.getD]
  · rfl

/-! ### Helper lemmas: frame-skip tick semantics -/

/-- The simulator state after `n` repeated ticks of the same action. -/
def simTicks (A : ALE σ) (a : Nat) (s : σ) : Nat → σ
  | 0 => s
  | n+1 => (A.act (simTicks A a s n) a).2

/-- The reward produced by the `(k+1)`-th tick of a repeated action. -/
def tickReward (A : ALE σ) (a : Nat) (s : σ) (k : Nat) : ℚ :=
  (A.act (simTicks A a s k) a).1

/-- `self.min_action_set[action]`: the ALE action id executed for an
agent-side action index. -/
def mappedAction (e : EnvState σ) (a : Nat) : Nat := e.minActionSet.getD a 0

lemma repeatAction_sim (A : ALE σ) (e : EnvState σ) (a : Nat) :
    (repeatAction A e a).2.sim = simTicks A a e.sim 4 := rfl

lemma repeatAction_reward (A : ALE σ) (e : EnvState σ) (a : Nat) :
    (repeatAction A e a).1 =
      tickReward A a e.sim 0 + tickReward A a e.sim 1 +
        tickReward A a e.sim 2 + tickReward A a e.sim 3 := by
  have h : (repeatAction A e a).1 =
      ((((0 : ℚ) + tickReward A a e.sim 0) + tickReward A a e.sim 1) +
        tickReward A a e.sim 2) + tickReward A a e.sim 3 := rfl
  rw [h, zero_add]

lemma repeatAction_index (A : ALE σ) (e : EnvState σ) (a : Nat) :
    (repeatAction A e a).2.index = e.index := by
  obtain ⟨s, b0, b1, idx, sb, sl, mas⟩ := e
  cases idx <;> rfl

/-- After the 4-tick repeat, the slot the parity index points at holds
the capture of tick 3 (the last write with the original parity). -/
lemma repeatAction_currentSlot (A : ALE σ) (e : EnvState σ) (a : Nat) :
    currentSlot (repeatAction A e a).2 = A.screen (simTicks A a e.sim 3) := by
  obtain ⟨s, b0, b1, idx, sb, sl, mas⟩ := e
  cases idx <;> rfl

/-- After the 4-tick repeat, the other slot holds the capture of tick
4, the most recent screen. -/
lemma repeatAction_otherSlot (A : ALE σ) (e : EnvState σ) (a : Nat) :
    otherSlot (repeatAction A e a).2 = A.screen (simTicks A a e.sim 4) := by
  obtain ⟨s, b0, b1, idx, sb, sl, mas⟩ := e
  cases idx <;> rfl

/-! ### Helper lemmas: elementwise maximum -/

lemma zipWith_getD {α β γ : Type} (h : α → β → γ) (d1 : α) (d2 : β) (d3 : γ) :
    ∀ (f : List α) (g : List β) (i : Nat), i < f.length → i < g.length →
      (List.zipWith h f g).getD i d3 = h (f.getD i d1) (g.getD i d2) := by
  intro f
  induction f with
  | nil => intro g i hi _; simp at hi
  | cons x xs ih =>
    intro g i hi hg
    cases g with
    | nil => simp at hg
    | cons y ys =>
      cases i with
      | zero => rfl
      | succ k =>
        show (List.zipWith h xs ys).getD k d3 = _
        exact ih ys k (by simpa using hi) (by simpa using hg)

/-- Each pixel of the elementwise maximum is the maximum of the
corresponding input pixels. -/
lemma pixel_elementwiseMax (f g : RawFrame) (i j : Nat)
    (hif : i < f.length) (hig : i < g.length)
    (hjf : j < (f.getD i []).length) (hjg : j < (g.getD i []).length) :
    pixel (elementwiseMax f g) i j = max (pixel f i j) (pixel g i j) := by
  rw [pixel, pixel, pixel, elementwiseMax,
    zipWith_getD (List.zipWith max) [] [] [] f g i hif hig,
    zipWith_getD max 0 0 0 _ _ j hjf hjg]

lemma elementwiseMax_comm (a b : RawFrame) : elementwiseMax a b = elementwiseMax b a :=
  List.zipWith_comm_of_comm _
    (fun p q => List.zipWith_comm_of_comm max max_comm p q) a b

/-- The preprocessed frame depends only on the two screen-buffer
slots, not on the parity index: identical buffer contents yield
bit-identical output. -/
lemma getPreprocessedFrame_buffer_eq (r : RawFrame → PFrame)
    (e1 e2 : EnvState σ) (h0 : e1.screenBuffer0 = e2.screenBuffer0)
    (h1 : e1.screenBuffer1 = e2.screenBuffer1) :
    getPreprocessedFrame r e1 = getPreprocessedFrame r e2 := by
  obtain ⟨s, b0, b1, idx, sb, sl, mas⟩ := e1
  obtain ⟨s', b0', b1', idx', sb', sl', mas'⟩ := e2
  simp only at h0 h1
  subst h0 h1
  cases idx <;> cases idx' <;>
    simp [getPreprocessedFrame, currentSlot, otherSlot, elementwiseMax_comm b0 b1]

/-! ### Claim theorems: frame skip and preprocessing -/

/-- C5: the action repeat performs exactly `frames_to_skip = 4`
simulator ticks, capturing a screen each tick (the ring buffer ends up
holding the captures of ticks 3 and 4), returns the sum of the four
per-tick rewards, and completes all four ticks unconditionally — in
particular `execute` still returns the full 4-tick reward sum, and
reports terminal when the life count after the four ticks has dropped
below the episode-start count. -/
theorem frameSkip_repeat_spec (A : ALE σ) (r : RawFrame → PFrame)
    (e : EnvState σ) (a : Nat) :
    (repeatAction A e a).1 =
      tickReward A a e.sim 0 + tickReward A a e.sim 1 +
        tickReward A a e.sim 2 + tickReward A a e.sim 3
    ∧ (repeatAction A e a).2.sim = simTicks A a e.sim 4
    ∧ currentSlot (repeatAction A e a).2 = A.screen (simTicks A a e.sim 3)
    ∧ otherSlot (repeatAction A e a).2 = A.screen (simTicks A a e.sim 4)
    ∧ (execute A r e a).reward =
        tickReward A (mappedAction e a) e.sim 0 +
          tickReward A (mappedAction e a) e.sim 1 +
          tickReward A (mappedAction e a) e.sim 2 +
          tickReward A (mappedAction e a) e.sim 3
    ∧ (A.lives (simTicks A (mappedAction e a) e.sim 4) < e.startLives →
        (execute A r e a).terminal = true) := by
  refine ⟨repeatAction_reward A e a, repeatAction_sim A e a,
    repeatAction_currentSlot A e a, repeatAction_otherSlot A e a,
    repeatAction_reward A e (mappedAction e a), ?_⟩
  intro h
  show didEpisodeEnd A (getNewState r (repeatAction A e (mappedAction e a)).2).env = true
  rw [didEpisodeEnd, getNewState_sim, getNewState_startLives,
    repeatAction_sim, repeatAction_startLives]
  simp [h]

/-- C6: the preprocessed frame produced after a 4-tick action repeat
is the deterministic rescale of the elementwise pixel maximum of the
two most recent raw captures (ticks 3 and 4); each output pixel of the
maximum is the max of the corresponding input pixels; and identical
ring-buffer contents always yield bit-identical output, whatever the
parity index. -/
theorem preprocess_max_rescale_spec (A : ALE σ) (r : RawFrame → PFrame)
    (e : EnvState σ) (a : Nat) :
    getPreprocessedFrame r (repeatAction A e a).2 =
      r (elementwiseMax (A.screen (simTicks A a e.sim 3))
          (A.screen (simTicks A a e.sim 4)))
    ∧ (∀ (f g : RawFrame) (i j : Nat), i < f.length → i < g.length →
        j < (f.getD i []).length → j < (g.getD i []).length →
        pixel (elementwiseMax f g) i j = max (pixel f i j) (pixel g i j))
    ∧ (∀ (e1 e2 : EnvState σ), e1.screenBuffer0 = e2.screenBuffer0 →
        e1.screenBuffer1 = e2.screenBuffer1 →
        getPreprocessedFrame r e1 = getPreprocessedFrame r e2) := by
  refine ⟨?_, pixel_elementwiseMax, getPreprocessedFrame_buffer_eq r⟩
  rw [getPreprocessedFrame, repeatAction_currentSlot, repeatAction_otherSlot]

/-! ### Helper lemmas: argmax and clip -/

lemma listMaxQ_mem : ∀ (l : List ℚ), l ≠ [] → listMaxQ l ∈ l := by
  intro l
  induction l with
  | nil => intro h; exact absurd rfl h
  | cons x xs ih =>
    intro _
    cases xs with
    | nil => simp [listMaxQ]
    | cons y ys =>
      rw [listMaxQ]
      rcases max_cases x (listMaxQ (y :: ys)) with ⟨h1, _⟩ | ⟨h1, _⟩
      · rw [h1]; exact List.mem_cons_self _ _
      · rw [h1]; exact List.mem_cons_of_mem x (ih (by simp))

lemma le_listMaxQ : ∀ (l : List ℚ) (x : ℚ), x ∈ l → x ≤ listMaxQ l := by
  intro l
  induction l with
  | nil => intro x hx; simp at hx
  | cons a as ih =>
    intro x hx
    cases as with
    | nil =>
      rw [List.mem_singleton] at hx
      rw [hx, listMaxQ]
    | cons y ys =>
      rw [listMaxQ]
      rcases List.mem_cons.mp hx with h | h
      · rw [h]; exact le_max_left _ _
      · exact le_trans (ih x h) (le_max_right _ _)

lemma firstIndexOfQ_lt_length (m : ℚ) :
    ∀ (l : List ℚ), m ∈ l → firstIndexOfQ m l < l.length := by
  intro l
  induction l with
  | nil => intro h; simp at h
  | cons x xs ih =>
    intro hm
    rw [firstIndexOfQ]
    by_cases hx : x = m
    · rw [if_pos hx]; simp
    · rw [if_neg hx]
      have hmem : m ∈ xs := by
        rcases List.mem_cons.mp hm with h | h
        · exact absurd h.symm hx
        · exact h
      simpa using ih hmem

lemma firstIndexOfQ_getD (m : ℚ) :
    ∀ (l : List ℚ), m ∈ l → l.getD (firstIndexOfQ m l) 0 = m := by
  intro l
  induction l with
  | nil => intro h; simp at h
  | cons x xs ih =>
    intro hm
    rw [firstIndexOfQ]
    by_cases hx : x = m
    · rw [if_pos hx]; exact hx
    · rw [if_neg hx]
      show xs.getD (firstIndexOfQ m xs) 0 = m
      have hmem : m ∈ xs := by
        rcases List.mem_cons.mp hm with h | h
        · exact absurd h.symm hx
        · exact h
      exact ih hmem

lemma firstIndexOfQ_before (m : ℚ) :
    ∀ (l : List ℚ) (j : Nat), j < firstIndexOfQ m l → l.getD j 0 ≠ m := by
  intro l
  induction l with
  | nil => intro j hj; rw [firstIndexOfQ] at hj; omega
  | cons x xs ih =>
    intro j hj
    rw [firstIndexOfQ] at hj
    by_cases hx : x = m
    · rw [if_pos hx] at hj; omega
    · rw [if_neg hx] at hj
      cases j with
      | zero => exact hx
      | succ k =>
        show xs.getD k 0 ≠ m
        exact ih k (by omega)

/-- Specification of `np.argmax`: for a nonempty list the result is a
valid index attaining the maximum value, and every strictly earlier
entry is strictly smaller (first-occurrence tie break). -/
lemma npArgmax_spec (l : List ℚ) (hl : l ≠ []) :
    npArgmax l < l.length
    ∧ l.getD (npArgmax l) 0 = listMaxQ l
    ∧ (∀ j, j < l.length → l.getD j 0 ≤ l.getD (npArgmax l) 0)
    ∧ (∀ j, j < npArgmax l → l.getD j 0 < l.getD (npArgmax l) 0) := by
  have hm := listMaxQ_mem l hl
  have h1 := firstIndexOfQ_lt_length (listMaxQ l) l hm
  have h2 := firstIndexOfQ_getD (listMaxQ l) l hm
  refine ⟨h1, h2, ?_, ?_⟩
  · intro j hj
    rw [npArgmax, h2]
    rw [List.getD_eq_getElem l 0 hj]
    exact le_listMaxQ l _ (List.getElem_mem hj)
  · intro j hj
    rw [npArgmax] at hj ⊢
    have hjl : j < l.length := lt_trans hj h1
    have hle : l.getD j 0 ≤ listMaxQ l := by
      rw [List.getD_eq_getElem l 0 hjl]
      exact le_listMaxQ l _ (List.getElem_mem hjl)
    rw [h2]
    exact lt_of_le_of_ne hle (firstIndexOfQ_before (listMaxQ l) l j hj)

lemma clip_lower (r : ℚ) : -1 ≤ clip r :=
  le_min (le_max_right r (-1)) (by norm_num)

lemma clip_upper (r : ℚ) : clip r ≤ 1 := min_le_right _ _

lemma clip_of_mem (r : ℚ) (h1 : -1 ≤ r) (h2 : r ≤ 1) : clip r = r := by
  rw [clip, max_eq_left h1, min_eq_left h2]

lemma clip_of_le (r : ℚ) (h : r ≤ -1) : clip r = -1 := by
  rw [clip, max_eq_right h]
  norm_num

lemma clip_of_ge (r : ℚ) (h : 1 ≤ r) : clip r = 1 := by
  rw [clip, max_eq_left (by linarith), min_eq_right h]

/-! ### Claim theorems: action selection and reward clipping -/

/-- C7: every worker iteration selects its action epsilon-greedily:
the loop uses `selectAction` with the hardcoded `epsilon = 1`; when the
uniform draw falls below epsilon the uniformly drawn action index is
taken (with the default epsilon = 1 this happens for every draw in
[0,1), i.e. selection is fully random); otherwise the argmax of the
estimated values is taken, a valid maximizing index whose earlier
entries are all strictly smaller (ties broken by lowest index). -/
theorem epsilonGreedy_selection_spec (ctx : WorkerCtx σ) (T : Nat)
    (ls : LoopState σ) (rv eps : ℚ) (u : Nat) (Q : List ℚ) :
    (workerIteration ctx T ls).lastAction =
      selectAction (ctx.randVal T) 1 (ctx.randAction T) (ctx.forward ls.state)
    ∧ (rv < 1 → selectAction rv 1 u Q = u)
    ∧ (eps ≤ rv → Q ≠ [] →
        selectAction rv eps u Q < Q.length
        ∧ (∀ j, j < Q.length →
            Q.getD j 0 ≤ Q.getD (selectAction rv eps u Q) 0)
        ∧ (∀ j, j < selectAction rv eps u Q →
            Q.getD j 0 < Q.getD (selectAction rv eps u Q) 0)) := by
  refine ⟨rfl, ?_, ?_⟩
  · intro h; rw [selectAction, if_pos h]
  · intro h hQ
    rw [selectAction, if_neg (not_lt.mpr h)]
    obtain ⟨ha, _, hc, hd⟩ := npArgmax_spec Q hQ
    exact ⟨ha, hc, hd⟩

/-- C8: in every worker iteration the reward produced by `execute` is
clipped to [-1, 1] before forming the learning target, and the target
is the clipped reward when terminal, else the clipped reward plus
gamma times the maximum target-network value over the next state; the
clip operator maps into [-1, 1], is the identity there, and saturates
outside. -/
theorem reward_clip_target_spec (ctx : WorkerCtx σ) (T : Nat)
    (ls : LoopState σ) (r : ℚ) :
    (workerIteration ctx T ls).lastReward =
      clip (execute ctx.A ctx.resizeFn ls.env
        (selectAction (ctx.randVal T) 1 (ctx.randAction T)
          (ctx.forward ls.state))).reward
    ∧ (workerIteration ctx T ls).lastY =
        (if (execute ctx.A ctx.resizeFn ls.env
              (selectAction (ctx.randVal T) 1 (ctx.randAction T)
                (ctx.forward ls.state))).terminal then
          (workerIteration ctx T ls).lastReward
        else
          (workerIteration ctx T ls).lastReward +
            GAMMA * listMaxQ (ctx.targetForward
              (execute ctx.A ctx.resizeFn ls.env
                (selectAction (ctx.randVal T) 1 (ctx.randAction T)
                  (ctx.forward ls.state))).state))
    ∧ (-1 ≤ (workerIteration ctx T ls).lastReward
        ∧ (workerIteration ctx T ls).lastReward ≤ 1)
    ∧ (-1 ≤ r → r ≤ 1 → clip r = r)
    ∧ (r ≤ -1 → clip r = -1)
    ∧ (1 ≤ r → clip r = 1) := by
  refine ⟨rfl, rfl, ⟨?_, ?_⟩, clip_of_mem r, clip_of_le r, clip_of_ge r⟩
  · exact clip_lower _
  · exact clip_upper _

/-! ### Helper lemmas: the worker loop's session-op trace -/

/-- The gradient-related session ops the loop body actually runs, per
iteration counter: only the zero-out, at `T % 5 == 0`. -/
def flushEvents : Nat → Nat → List SessionEvent
  | _, 0 => []
  | T, n+1 =>
    (if T % 5 = 0 then [SessionEvent.zeroOutGradients T] else []) ++
      flushEvents (T+1) n

lemma workerIteration_events (ctx : WorkerCtx σ) (T : Nat) (ls : LoopState σ) :
    (workerIteration ctx T ls).events =
      ls.events ++ (if T % 5 = 0 then [SessionEvent.zeroOutGradients T] else []) := rfl

lemma workerIteration_grads (ctx : WorkerCtx σ) (T : Nat) (ls : LoopState σ) :
    (workerIteration ctx T ls).grads = if T % 5 = 0 then 0 else ls.grads := rfl

lemma workerRun_events (ctx : WorkerCtx σ) :
    ∀ (n T : Nat) (ls : LoopState σ),
      (workerRun ctx T n ls).events = ls.events ++ flushEvents T n := by
  intro n
  induction n with
  | zero => intro T ls; rw [workerRun, flushEvents, List.append_nil]
  | succ k ih =>
    intro T ls
    rw [workerRun, ih, workerIteration_events, flushEvents, List.append_assoc]

lemma workerRun_grads_zero (ctx : WorkerCtx σ) :
    ∀ (n T : Nat) (ls : LoopState σ), ls.grads = 0 →
      (workerRun ctx T n ls).grads = 0 := by
  intro n
  induction n with
  | zero => intro T ls h; exact h
  | succ k ih =>
    intro T ls h
    rw [workerRun]
    refine ih (T+1) _ ?_
    rw [workerIteration_grads, h]
    by_cases hT : T % 5 = 0
    · rw [if_pos hT]
    · rw [if_neg hT]

lemma countApplyEvents_append (a b : List SessionEvent) :
    countApplyEvents (a ++ b) = countApplyEvents a + countApplyEvents b :=
  List.countP_append _ _ _

lemma countAccumEvents_append (a b : List SessionEvent) :
    countAccumEvents (a ++ b) = countAccumEvents a + countAccumEvents b :=
  List.countP_append _ _ _

lemma countResetEvents_append (a b : List SessionEvent) :
    countResetEvents (a ++ b) = countResetEvents a + countResetEvents b :=
  List.countP_append _ _ _

lemma flushEvents_countReset : ∀ (n T : Nat), countResetEvents (flushEvents T n) = 0 := by
  intro n
  induction n with
  | zero => intro T; rfl
  | succ k ih =>
    intro T
    rw [flushEvents, countResetEvents_append, ih]
    by_cases hT : T % 5 = 0
    · rw [if_pos hT]; rfl
    · rw [if_neg hT]; rfl

/-- Each worker thread runs its bounded loop and then exactly one
target-network sync, as its last session op. -/
lemma threadEvents_eq (ctx : WorkerCtx σ) (ls : LoopState σ) (h : ls.events = []) :
    threadEvents ctx ls =
      flushEvents 0 TMax ++ [SessionEvent.resetTargetNetworkParams] := by
  show (workerRun ctx 0 TMax ls).events ++ [SessionEvent.resetTargetNetworkParams] = _
  rw [workerRun_events, h, List.nil_append]

lemma threadEvents_countReset (ctx : WorkerCtx σ) (ls : LoopState σ)
    (h : ls.events = []) : countResetEvents (threadEvents ctx ls) = 1 := by
  rw [threadEvents_eq ctx ls h, countResetEvents_append, flushEvents_countReset]
  rfl

/-- In the linearized trace of `train()`, one target sync occurs per
worker: `NUM_CONCURRENT` in total. -/
lemma trainEvents_countReset (ctx : WorkerCtx σ) (ls0 : Nat → LoopState σ)
    (h : ∀ i, (ls0 i).events = []) :
    countResetEvents (trainEvents ctx ls0) = NUM_CONCURRENT := by
  show countResetEvents
    (threadEvents ctx (ls0 0) ++ (threadEvents ctx (ls0 1) ++
      (threadEvents ctx (ls0 2) ++ (threadEvents ctx (ls0 3) ++ [])))) = 4
  rw [countResetEvents_append, countResetEvents_append, countResetEvents_append,
    countResetEvents_append, threadEvents_countReset ctx (ls0 0) (h 0),
    threadEvents_countReset ctx (ls0 1) (h 1),
    threadEvents_countReset ctx (ls0 2) (h 2),
    threadEvents_countReset ctx (ls0 3) (h 3)]
  rfl

/-! ### Concrete fixtures for witnesses -/

/-- A trivial simulator over a unit state. -/
def trivALE : ALE Unit :=
  { act := fun _ _ => (0, ())
    screen := fun _ => [[0]]
    lives := fun _ => 0
    gameOver := fun _ => false
    resetGame := fun _ => ()
    minimalActionSet := [0] }

/-- A concrete deterministic rescale (identity resolution) standing in
for skimage `resize` in witnesses. -/
def idResize : RawFrame → PFrame :=
  fun g => g.map (fun row => row.map (fun n => (n : ℚ)))

/-- A fresh trivial environment. -/
def trivEnv : EnvState Unit := mkEnvironment trivALE ()

/-- A trivial worker context. -/
def trivCtx : WorkerCtx Unit :=
  { A := trivALE
    resizeFn := idResize
    forward := fun _ => [0, 0, 0, 0]
    targetForward := fun _ => [0, 0, 0, 0]
    randVal := fun _ => 0
    randAction := fun _ => 0
    nullopDraw := fun _ => 0 }

/-- A trivial initial loop state (zero accumulator, empty trace). -/
def trivLoop : LoopState Unit :=
  { env := trivEnv
    state := []
    grads := 0
    events := []
    lastAction := 0
    lastReward := 0
    lastY := 0 }

/-! ### Claim theorems: flush cadence and target sync -/

/-- C1 (code evaluated at the failing input): during the first 5 worker
iterations (T = 0..4) the only gradient-related session op the loop
runs is a single zero-out, at T = 0 — the accumulate and
apply-gradients ops are never run (they are commented out in the
source), so after exactly 5 worker steps zero `applyGradient` calls
have occurred (the claim expects exactly one, at the 5-step boundary)
and the accumulator is zero. -/
theorem flushCadence_first5_zeroApplies (ctx : WorkerCtx σ) (ls : LoopState σ)
    (hev : ls.events = []) (hg : ls.grads = 0) :
    (workerRun ctx 0 5 ls).events = [SessionEvent.zeroOutGradients 0]
    ∧ countApplyEvents (workerRun ctx 0 5 ls).events = 0
    ∧ countAccumEvents (workerRun ctx 0 5 ls).events = 0
    ∧ (workerRun ctx 0 5 ls).grads = 0 := by
  have he : (workerRun ctx 0 5 ls).events = [SessionEvent.zeroOutGradients 0] := by
    rw [workerRun_events, hev]
    rfl
  refine ⟨he, ?_, ?_, workerRun_grads_zero ctx 5 0 ls hg⟩
  · rw [he]; rfl
  · rw [he]; rfl

theorem flushCadence_first5_zeroApplies_witness :
    countApplyEvents (workerRun trivCtx 0 5 trivLoop).events = 0
    ∧ (workerRun trivCtx 0 5 trivLoop).events = [SessionEvent.zeroOutGradients 0]
    ∧ (workerRun trivCtx 0 5 trivLoop).grads = 0 :=
  ⟨(flushCadence_first5_zeroApplies trivCtx trivLoop rfl rfl).2.1,
   (flushCadence_first5_zeroApplies trivCtx trivLoop rfl rfl).1,
   (flushCadence_first5_zeroApplies trivCtx trivLoop rfl rfl).2.2.2⟩

/-- C2 counterexample: in the linearized session-op trace of
`train()`, the number of target-sync runs is `NUM_CONCURRENT` = 4, not
one — the sync is performed once by each worker thread at the end of
its own loop, not once by `train()` after joining. -/
theorem train_syncTarget_count_counterexample :
    countResetEvents (trainEvents trivCtx (fun _ => trivLoop)) ≠ 1 := by
  rw [trainEvents_countReset trivCtx (fun _ => trivLoop) (fun _ => rfl)]
  decide

/-- C2 amended: `train()` spawns all `NUM_CONCURRENT` workers and
waits for each to finish; each worker's trace ends with exactly one
target sync of its own (so the linearized train trace holds
`NUM_CONCURRENT` syncs, none performed by `train()` itself after the
join); each sync makes the target parameters bit-identical to the
online parameters, and an `apply_gradients` never touches the target
parameters. -/
theorem train_syncTarget_perWorker_amended {σ Θ : Type} (ctx : WorkerCtx σ)
    (ls : LoopState σ) (ls0 : Nat → LoopState σ) (upd : Θ → Θ → Θ) (g : Θ)
    (p : Params Θ) :
    (ls.events = [] →
      threadEvents ctx ls =
        flushEvents 0 TMax ++ [SessionEvent.resetTargetNetworkParams])
    ∧ ((∀ i, (ls0 i).events = []) →
        countResetEvents (trainEvents ctx ls0) = NUM_CONCURRENT)
    ∧ (resetTargetNetworkParamsOp p).target = p.online
    ∧ (applyGradientsOp upd g p).target = p.target :=
  ⟨threadEvents_eq ctx ls, trainEvents_countReset ctx ls0, rfl, rfl⟩

theorem train_syncTarget_perWorker_amended_witness :
    countResetEvents (trainEvents trivCtx (fun _ => trivLoop)) = NUM_CONCURRENT
    ∧ (resetTargetNetworkParamsOp (Params.mk (1 : ℚ) 2)).target = 1 :=
  ⟨(train_syncTarget_perWorker_amended trivCtx trivLoop (fun _ => trivLoop)
      (fun a b => a + b) (0 : ℚ) (Params.mk (1 : ℚ) 2)).2.1 (fun _ => rfl),
   (train_syncTarget_perWorker_amended trivCtx trivLoop (fun _ => trivLoop)
      (fun a b => a + b) (0 : ℚ) (Params.mk (1 : ℚ) 2)).2.2.1⟩

/-! ### Witnesses for the remaining claim theorems -/

/-- An all-zero preprocessed frame. -/
def pzero : PFrame := [[0]]

/-- An environment already satisfying the window invariant. -/
def envC3 : EnvState Unit :=
  { sim := ()
    screenBuffer0 := [[0]]
    screenBuffer1 := [[0]]
    index := false
    stateBuffer := [pzero, pzero, pzero]
    startLives := 0
    minActionSet := [0] }

/-- A four-frame window whose tail is `envC3`'s deque. -/
def wC3 : List PFrame := [pzero, pzero, pzero, pzero]

theorem stateWindow_length_invariant_witness :
    (getInitialState trivALE idResize trivEnv 0).window.length = agentHistoryLength
    ∧ (execute trivALE idResize envC3 0).state.length = agentHistoryLength :=
  ⟨(stateWindow_length_invariant trivALE idResize trivEnv 0 0).1,
   ((stateWindow_length_invariant trivALE idResize trivEnv 0 0).2.2
      envC3 wC3 rfl rfl).1⟩

/-- A simulator whose tick counter is its state: tick `k` yields reward
`k`, and the third tick loses a life (2 lives before, 1 after). -/
def lossALE : ALE Nat :=
  { act := fun s _ => ((s : ℚ) + 1, s + 1)
    screen := fun s => [[s]]
    lives := fun s => if s < 3 then 2 else 1
    gameOver := fun _ => false
    resetGame := fun _ => 0
    minimalActionSet := [0, 1, 2, 3] }

/-- An in-episode environment on `lossALE` with 2 recorded lives. -/
def envC5 : EnvState Nat :=
  { sim := 0
    screenBuffer0 := [[0]]
    screenBuffer1 := [[0]]
    index := false
    stateBuffer := [pzero, pzero, pzero]
    startLives := 2
    minActionSet := [0, 1, 2, 3] }

theorem frameSkip_repeat_spec_witness :
    (execute lossALE idResize envC5 0).terminal = true
    ∧ (execute lossALE idResize envC5 0).reward = 10 := by
  have h := frameSkip_repeat_spec lossALE idResize envC5 0
  refine ⟨h.2.2.2.2.2 (by decide), ?_⟩
  rw [h.2.2.2.2.1]
  norm_num [tickReward, simTicks, lossALE, mappedAction, envC5]

/-- Two environments sharing the same two raw captures but opposite
parity indices. -/
def envSwapA : EnvState Unit :=
  { trivEnv with screenBuffer0 := [[1, 2]], screenBuffer1 := [[3, 4]], index := false }

/-- Same buffers as `envSwapA`, toggled index. -/
def envSwapB : EnvState Unit :=
  { trivEnv with screenBuffer0 := [[1, 2]], screenBuffer1 := [[3, 4]], index := true }

theorem preprocess_max_rescale_spec_witness :
    pixel (elementwiseMax [[1, 5], [3, 0]] [[2, 4], [1, 7]]) 1 1 =
      max (pixel [[1, 5], [3, 0]] 1 1) (pixel [[2, 4], [1, 7]] 1 1)
    ∧ getPreprocessedFrame idResize envSwapA = getPreprocessedFrame idResize envSwapB := by
  have h := preprocess_max_rescale_spec trivALE idResize trivEnv 0
  exact ⟨h.2.1 [[1, 5], [3, 0]] [[2, 4], [1, 7]] 1 1 (by decide) (by decide)
      (by decide) (by decide),
    h.2.2 envSwapA envSwapB rfl rfl⟩

theorem epsilonGreedy_selection_spec_witness :
    selectAction (1/2 : ℚ) 1 2 [1, 3, 3, 2] = 2
    ∧ selectAction (1/2 : ℚ) (1/3) 2 [1, 3, 3, 2] < [(1 : ℚ), 3, 3, 2].length := by
  have h := epsilonGreedy_selection_spec trivCtx 0 trivLoop (1/2) (1/3) 2 [1, 3, 3, 2]
  exact ⟨h.2.1 (by norm_num), (h.2.2 (by norm_num) (by decide)).1⟩

theorem reward_clip_target_spec_witness :
    clip (5 : ℚ) = 1 ∧ clip (-7 : ℚ) = -1 ∧ clip (1/2 : ℚ) = 1/2 := by
  have h5 := reward_clip_target_spec trivCtx 0 trivLoop (5 : ℚ)
  have hm := reward_clip_target_spec trivCtx 0 trivLoop (-7 : ℚ)
  have hh := reward_clip_target_spec trivCtx 0 trivLoop (1/2 : ℚ)
  exact ⟨h5.2.2.2.2.2 (by norm_num), hm.2.2.2.2.1 (by norm_num),
    hh.2.2.2.1 (by norm_num) (by norm_num)⟩

end AsyncRL
